import Mathlib

/-!
Verification of the core of h3llo.py (class WindowsForensicTool): a shallow
embedding of the process runner, the two command-set collectors, the subnet
sweeper and the report aggregation in run_scan, together with proofs of the
behavioural properties stated in the design documentation.

Conventions of the embedding: Python strings are String, the OS behaviour of
one subprocess invocation is a value of ProcBehavior, and UI collaborators
(progress bars, console, prompts) are dropped since they do not influence the
returned data.
-/

namespace H3llo

/-- Whitespace characters removed by the Python method str.strip() with no
argument, restricted to ASCII: space, tab, newline, carriage return,
vertical tab and form feed. -/
def isPySpace (c : Char) : Bool :=
  c == ' ' || c == '\t' || c == '\n' || c == '\r' || c == Char.ofNat 11 || c == Char.ofNat 12

/-- Embedding of the Python expression stdout.strip() used in run_command:
removes leading and trailing whitespace. -/
def pyStrip (s : String) : String :=
  String.mk (((s.data.dropWhile isPySpace).reverse.dropWhile isPySpace).reverse)

/-- Value returned by WindowsForensicTool.run_command: the pair of the
stdout-derived text and the stderr-derived text. The second component is the
error component that every caller inspects. -/
structure ProbeResult where
  out : String
  err : String
  deriving DecidableEq

/-- Behaviour of the operating system on one subprocess invocation: a normal
exit with captured stdout, stderr and an exit code, expiry of the 30-second
wait raising subprocess.TimeoutExpired, or any other exception while
launching or communicating. These are exactly the cases distinguished by the
try/except structure of run_command. -/
inductive ProcBehavior where
  | exits (stdout stderr : String) (exitCode : Int)
  | timesOut
  | launchError (msg : String)

/-- Embedding of WindowsForensicTool.run_command (src/h3llo.py lines 52-66):
a normal exit returns (stdout.strip(), stderr); subprocess.TimeoutExpired
returns ("", "Command timed out"); any other exception e returns
("", str(e)). The exit code is never inspected. -/
def run_command : ProcBehavior → ProbeResult
  | .exits stdout stderr _ => ⟨pyStrip stdout, stderr⟩
  | .timesOut => ⟨"", "Command timed out"⟩
  | .launchError msg => ⟨"", msg⟩

/-- A probe result counts as failed exactly when the collectors skip it: the
loops in get_system_info and get_network_info keep a result only under the
Python test (not error), that is when the error component is empty. -/
def ProbeResult.failed (r : ProbeResult) : Bool := !(r.err == "")

/-- A runner maps one command line to the pair run_command returns for it.
The collectors and the sweeper interact with run_command only through this
interface, so quantifying over runners quantifies over every behaviour of
the process runner. -/
abbrev Runner := String → ProbeResult

/-- The runner realised by the tool itself: self.run_command under a fixed
operating-system behaviour env. -/
def tool_runner (env : String → ProcBehavior) : Runner :=
  fun cmd => run_command (env cmd)

/-- Embedding of the collection loop shared by get_system_info (lines
104-112) and get_network_info (lines 81-89): for each (label, command) pair
in declaration order, run the command and store the output under the label
exactly when the error component is empty. -/
def collect (commands : List (String × String)) (runner : Runner) :
    List (String × String) :=
  commands.foldl
    (fun info kc =>
      if (runner kc.2).err == "" then info ++ [(kc.1, (runner kc.2).out)] else info)
    []

/-- Command set of get_system_info (lines 94-100). -/
def system_commands : List (String × String) :=
  [("Hostname", "hostname"),
   ("System Info", "systeminfo"),
   ("User Accounts", "net users"),
   ("Admin Group", "net localgroup administrators"),
   ("Running Services", "wmic service list brief | findstr \"Running\"")]

/-- Command set of get_network_info (lines 71-77). -/
def network_commands : List (String × String) :=
  [("Network Shares", "net share"),
   ("Active Connections", "netstat -naob"),
   ("Routing Table", "route print"),
   ("ARP Cache", "arp -a"),
   ("IP Configuration", "ipconfig /all")]

/-- Embedding of WindowsForensicTool.get_system_info (lines 91-112). -/
def get_system_info (env : String → ProcBehavior) : List (String × String) :=
  collect system_commands (tool_runner env)

/-- Embedding of WindowsForensicTool.get_network_info (lines 68-89). -/
def get_network_info (env : String → ProcBehavior) : List (String × String) :=
  collect network_commands (tool_runner env)

/-- Test whether the second list starts with the first one. -/
def leadMatch : List Char → List Char → Bool
  | [], _ => true
  | _ :: _, [] => false
  | a :: as, b :: bs => a == b && leadMatch as bs

/-- Test whether the first list occurs contiguously inside the second. -/
def subMatch (needle : List Char) : List Char → Bool
  | [] => leadMatch needle []
  | b :: bs => leadMatch needle (b :: bs) || subMatch needle bs

/-- Embedding of the Python substring test (needle in hay) used on line 125. -/
def strContains (hay needle : String) : Bool :=
  subMatch needle.data hay.data

/-- Dotted address built by the f-string on line 120 of scan_network. -/
def mkIp (subnet : String) (h : Nat) : String :=
  subnet ++ "." ++ Nat.repr h

/-- Command line issued for one liveness probe (line 122). -/
def pingCmd (subnet : String) (h : Nat) : String :=
  "ping -n 1 -w 200 " ++ mkIp subnet h

/-- Liveness test of line 125: the affirmative reply marker occurs in the
captured output of the probe; the error component is discarded. -/
def liveHost (runner : Runner) (subnet : String) (h : Nat) : Bool :=
  strContains (runner (pingCmd subnet h)).out "Reply from"

/-- Embedding of WindowsForensicTool.scan_network (lines 114-131): iterate
host numbers 1 to 254, probe each address, and append the address to the
accumulating list exactly when the probe output contains the marker. -/
def scan_network (subnet : String) (runner : Runner) : List String :=
  (List.range' 1 254).foldl
    (fun acc h => if liveHost runner subnet h then acc ++ [mkIp subnet h] else acc)
    []

/-- Instrumented scan_network that additionally records, in order, each
command line handed to run_command: one probe per loop iteration, issued
unconditionally. -/
def scan_network_trace (subnet : String) (runner : Runner) :
    List String × List String :=
  (List.range' 1 254).foldl
    (fun st h =>
      (st.1 ++ [pingCmd subnet h],
       if liveHost runner subnet h then st.2 ++ [mkIp subnet h] else st.2))
    ([], [])

/-- Variant of scan_network run against a possibly call-dependent
environment: the runner additionally receives the index of the run_command
call, counted from k0. The source executes probes strictly sequentially, so
two consecutive sweeps see call indices 0..253 and then 254..507. -/
def scan_network_seq (runner : Nat → String → ProbeResult) (subnet : String)
    (k0 : Nat) : List String :=
  ((List.range' 1 254).foldl
    (fun (st : Nat × List String) h =>
      (st.1 + 1,
       if strContains (runner st.1 (pingCmd subnet h)).out "Reply from"
       then st.2 ++ [mkIp subnet h] else st.2))
    (k0, [])).2

/-- The results dictionary created in WindowsForensicTool.__init__ (lines
30-35). -/
structure Report where
  timestamp : String
  system_info : List (String × String)
  network_info : List (String × String)
  active_hosts : List String

/-- Report as first built: the timestamp argument stands for the value of
datetime.now().isoformat() observed at construction time. -/
def init_report (ts : String) : Report :=
  ⟨ts, [], [], []⟩

/-- Python truthiness of the optional subnet argument of run_scan: None and
the empty string are falsy, so both skip the sweep phase. -/
def py_truthy : Option String → Bool
  | none => false
  | some s => !(s == "")

/-- First phase of run_scan (line 181): write the system_info field. -/
def phase_system (env : String → ProcBehavior) (r : Report) : Report :=
  { r with system_info := get_system_info env }

/-- Second phase of run_scan (line 185): write the network_info field. -/
def phase_network (env : String → ProcBehavior) (r : Report) : Report :=
  { r with network_info := get_network_info env }

/-- Third, conditional phase of run_scan (lines 188-190): write the
active_hosts field only when the subnet argument is truthy. -/
def phase_hosts (subnet : Option String) (env : String → ProcBehavior)
    (r : Report) : Report :=
  match subnet with
  | some s =>
      if s == "" then r else { r with active_hosts := scan_network s (tool_runner env) }
  | none => r

/-- Embedding of WindowsForensicTool.run_scan (lines 159-191) restricted to
its report mutations: the three phases applied in order to the report built
at construction time. -/
def run_scan (subnet : Option String) (env : String → ProcBehavior)
    (ts : String) : Report :=
  phase_hosts subnet env (phase_network env (phase_system env (init_report ts)))

/-- Decimal reading of a string of digits, used to invert Nat.repr on the
host-number range. -/
def decodeNat (s : String) : Nat :=
  s.data.foldl (fun n c => n * 10 + (c.toNat - 48)) 0

/-! Helper lemmas shared by several of the correctness theorems below. -/

theorem foldl_if_append {α β : Type} (p : α → Bool) (g : α → β) :
    ∀ (l : List α) (acc : List β),
      l.foldl (fun acc x => if p x then acc ++ [g x] else acc) acc
        = acc ++ (l.filter p).map g := by
  intro l
  induction l with
  | nil => intro acc; simp
  | cons a l ih =>
      intro acc
      cases hp : p a with
      | true => simp [List.foldl, List.filter_cons, hp, ih, List.append_assoc]
      | false => simp [List.foldl, List.filter_cons, hp, ih]

theorem collect_eq (commands : List (String × String)) (runner : Runner) :
    collect commands runner
      = (commands.filter (fun kc => (runner kc.2).err == "")).map
          (fun kc => (kc.1, (runner kc.2).out)) := by
  unfold collect
  exact foldl_if_append (fun kc => (runner kc.2).err == "")
    (fun kc => (kc.1, (runner kc.2).out)) commands []

theorem scan_network_eq (subnet : String) (runner : Runner) :
    scan_network subnet runner
      = ((List.range' 1 254).filter (liveHost runner subnet)).map (mkIp subnet) := by
  unfold scan_network
  exact foldl_if_append (liveHost runner subnet) (mkIp subnet) (List.range' 1 254) []

theorem mem_collect_keys (commands : List (String × String)) (runner : Runner)
    (l : String) :
    l ∈ (collect commands runner).map Prod.fst
      ↔ ∃ c, (l, c) ∈ commands ∧ (runner c).err = "" := by
  rw [collect_eq]
  constructor
  · intro hl
    rcases List.mem_map.mp hl with ⟨y, hy, hfst⟩
    rcases List.mem_map.mp hy with ⟨kc, hkc, hg⟩
    rcases List.mem_filter.mp hkc with ⟨hmem, hsucc⟩
    refine ⟨kc.2, ?_, by simpa using hsucc⟩
    have : kc.1 = l := by rw [← hfst, ← hg]
    simpa [← this] using hmem
  · rintro ⟨c, hmem, hsucc⟩
    exact List.mem_map.mpr ⟨(l, (runner c).out),
      List.mem_map.mpr ⟨(l, c), List.mem_filter.mpr ⟨hmem, by simpa using hsucc⟩, rfl⟩, rfl⟩

theorem nodup_keys_unique {α β : Type} [DecidableEq α] :
    ∀ {l : List (α × β)}, (l.map Prod.fst).Nodup →
      ∀ {a : α} {b c : β}, (a, b) ∈ l → (a, c) ∈ l → b = c := by
  intro l
  induction l with
  | nil => intro _ a b c h1; cases h1
  | cons x xs ih =>
      intro hnd a b c h1 h2
      have hx : x.1 ∉ xs.map Prod.fst := (List.nodup_cons.mp (by simpa using hnd)).1
      have hxs : (xs.map Prod.fst).Nodup := (List.nodup_cons.mp (by simpa using hnd)).2
      rcases List.mem_cons.mp h1 with h1 | h1 <;> rcases List.mem_cons.mp h2 with h2 | h2
      · rw [← h1] at h2; exact congrArg Prod.snd (h2.symm)
      · exfalso; apply hx
        rw [← h1]
        exact List.mem_map.mpr ⟨(a, c), h2, rfl⟩
      · exfalso; apply hx
        rw [← h2]
        exact List.mem_map.mpr ⟨(a, b), h1, rfl⟩
      · exact ih hxs h1 h2

theorem mem_scan_network (subnet : String) (runner : Runner) (ip : String) :
    ip ∈ scan_network subnet runner
      ↔ ∃ h, h ∈ List.range' 1 254 ∧ ip = mkIp subnet h
          ∧ liveHost runner subnet h = true := by
  rw [scan_network_eq]
  constructor
  · intro hip
    rcases List.mem_map.mp hip with ⟨h, hh, hmk⟩
    rcases List.mem_filter.mp hh with ⟨hmem, hlive⟩
    exact ⟨h, hmem, hmk.symm, hlive⟩
  · rintro ⟨h, hmem, hmk, hlive⟩
    exact List.mem_map.mpr ⟨h, List.mem_filter.mpr ⟨hmem, hlive⟩, hmk.symm⟩

theorem mkIp_cancel {subnet : String} {h k : Nat}
    (e : mkIp subnet h = mkIp subnet k) : Nat.repr h = Nat.repr k := by
  unfold mkIp at e
  have e2 : (subnet ++ ".").data ++ (Nat.repr h).data
      = (subnet ++ ".").data ++ (Nat.repr k).data := by
    rw [← String.data_append, ← String.data_append, e]
  exact String.ext (List.append_cancel_left e2)

set_option maxRecDepth 8192 in
theorem repr_ne_edge : ∀ h ∈ List.range' 1 254, Nat.repr h ≠ "0" ∧ Nat.repr h ≠ "255" := by
  decide

set_option maxRecDepth 8192 in
theorem decode_repr : ∀ h ∈ List.range' 1 254, decodeNat (Nat.repr h) = h := by
  decide

theorem mkIp_inj_on {subnet : String} {h k : Nat}
    (hh : h ∈ List.range' 1 254) (hk : k ∈ List.range' 1 254)
    (e : mkIp subnet h = mkIp subnet k) : h = k := by
  have := congrArg decodeNat (mkIp_cancel e)
  rwa [decode_repr h hh, decode_repr k hk] at this

theorem trace_foldl (subnet : String) (runner : Runner) :
    ∀ (l : List Nat) (st : List String × List String),
      l.foldl
        (fun st h =>
          (st.1 ++ [pingCmd subnet h],
           if liveHost runner subnet h then st.2 ++ [mkIp subnet h] else st.2)) st
        = (st.1 ++ l.map (pingCmd subnet),
           l.foldl
             (fun acc h => if liveHost runner subnet h then acc ++ [mkIp subnet h] else acc)
             st.2) := by
  intro l
  induction l with
  | nil => intro st; simp
  | cons a l ih =>
      intro st
      simp only [List.foldl, List.map_cons]
      rw [ih]
      simp [List.append_assoc]

theorem scan_network_trace_eq (subnet : String) (runner : Runner) :
    scan_network_trace subnet runner
      = ((List.range' 1 254).map (pingCmd subnet), scan_network subnet runner) := by
  unfold scan_network_trace scan_network
  rw [trace_foldl subnet runner (List.range' 1 254) ([], [])]
  simp

theorem seq_foldl (runner : Nat → String → ProbeResult)
    (hdet : ∀ n m cmd, runner n cmd = runner m cmd) (subnet : String) :
    ∀ (l : List Nat) (st : Nat × List String),
      (l.foldl
        (fun (st : Nat × List String) h =>
          (st.1 + 1,
           if strContains (runner st.1 (pingCmd subnet h)).out "Reply from"
           then st.2 ++ [mkIp subnet h] else st.2)) st).2
        = l.foldl
            (fun acc h => if liveHost (runner 0) subnet h then acc ++ [mkIp subnet h] else acc)
            st.2 := by
  intro l
  induction l with
  | nil => intro st; rfl
  | cons a l ih =>
      intro st
      simp only [List.foldl]
      rw [ih]
      have : runner st.1 (pingCmd subnet a) = runner 0 (pingCmd subnet a) :=
        hdet st.1 0 (pingCmd subnet a)
      rw [liveHost, this]

theorem scan_network_seq_eq (runner : Nat → String → ProbeResult)
    (hdet : ∀ n m cmd, runner n cmd = runner m cmd) (subnet : String) (k0 : Nat) :
    scan_network_seq runner subnet k0 = scan_network subnet (runner 0) := by
  unfold scan_network_seq scan_network
  exact seq_foldl runner hdet subnet (List.range' 1 254) (k0, [])

/-- Claim C3: for every process-runner invocation whose child process exits
normally, the returned result carries the trimmed standard-output text, and
the result counts as failed exactly when the captured standard error is
non-empty, for every exit code. -/
theorem runner_normal_exit_contract (stdout stderr : String) (code : Int) :
    (run_command (.exits stdout stderr code)).out = pyStrip stdout ∧
    ((run_command (.exits stdout stderr code)).failed = true ↔ stderr ≠ "") := by
  constructor
  · rfl
  · simp [run_command, ProbeResult.failed]

/-- Claim C4: evaluation of the timeout branch of run_command. The result is
failed with reason "Command timed out", which is not the exact text
"timed out" the documentation states; moreover the source never kills the
child after subprocess.TimeoutExpired, so the termination requirement is not
met by the code. -/
theorem runner_timeout_eval :
    run_command ProcBehavior.timesOut = ⟨"", "Command timed out"⟩ ∧
    (run_command ProcBehavior.timesOut).failed = true ∧
    "Command timed out" ≠ "timed out" := by
  refine ⟨rfl, by decide, by decide⟩

/-- Claim C5: for every subnet and every runner behaviour, the sweep result
contains neither the host-number 0 address nor the host-number 255 address,
and has length at most 254. -/
theorem sweep_excludes_edge_hosts (subnet : String) (runner : Runner) :
    mkIp subnet 0 ∉ scan_network subnet runner ∧
    mkIp subnet 255 ∉ scan_network subnet runner ∧
    (scan_network subnet runner).length ≤ 254 := by
  refine ⟨?_, ?_, ?_⟩
  · intro hmem
    rcases (mem_scan_network subnet runner _).mp hmem with ⟨h, hh, hmk, _⟩
    have hr : Nat.repr h = "0" := by
      rw [mkIp_cancel hmk.symm]; decide
    exact (repr_ne_edge h hh).1 hr
  · intro hmem
    rcases (mem_scan_network subnet runner _).mp hmem with ⟨h, hh, hmk, _⟩
    have hr : Nat.repr h = "255" := by
      rw [mkIp_cancel hmk.symm]; decide
    exact (repr_ne_edge h hh).2 hr
  · rw [scan_network_eq, List.length_map]
    have := List.length_filter_le (liveHost runner subnet) (List.range' 1 254)
    simpa [List.length_range'] using this

/-- Claim C6: the sequential sweep returns addresses in ascending
host-number order: whenever the address of host-number i occurs before the
address of host-number j in the result, i is smaller than j. -/
theorem sweep_ascending_order (subnet : String) (runner : Runner) :
    (scan_network subnet runner).Pairwise
      (fun a b => ∀ i j, i ∈ List.range' 1 254 → j ∈ List.range' 1 254 →
        a = mkIp subnet i → b = mkIp subnet j → i < j) := by
  rw [scan_network_eq]
  apply List.pairwise_map.mpr
  have h1 : (List.range' 1 254).Pairwise (· < ·) := List.pairwise_lt_range' 1 254
  have h2 := h1.filter (liveHost runner subnet)
  refine h2.imp_of_mem ?_
  intro a b ha hb hab i j hi hj ea eb
  have ha2 : a ∈ List.range' 1 254 := List.mem_of_mem_filter ha
  have hb2 : b ∈ List.range' 1 254 := List.mem_of_mem_filter hb
  have e1 : a = i := mkIp_inj_on ha2 hi ea
  have e2 : b = j := mkIp_inj_on hb2 hj eb
  rw [← e1, ← e2]
  exact hab

/-- Claim C1: with distinct category labels, a label is present in the
collected map exactly when its probe returned an empty error component; the
key set is always a subset of the input label set, equals it when every
command succeeds, and a single failed command yields exactly N-1 entries
with all successful entries unchanged. -/
theorem collector_presence_iff_success
    (commands : List (String × String)) (runner : Runner)
    (hnd : (commands.map Prod.fst).Nodup) :
    (∀ l c, (l, c) ∈ commands →
      (l ∈ (collect commands runner).map Prod.fst ↔ (runner c).err = "")) ∧
    (∀ l, l ∈ (collect commands runner).map Prod.fst → l ∈ commands.map Prod.fst) ∧
    ((∀ kc, kc ∈ commands → (runner kc.2).err = "") →
      (collect commands runner).map Prod.fst = commands.map Prod.fst) ∧
    (∀ pre kc post, commands = pre ++ kc :: post → (runner kc.2).err ≠ "" →
      (∀ x, (x ∈ pre ∨ x ∈ post) → (runner x.2).err = "") →
      (collect commands runner).length = commands.length - 1 ∧
      collect commands runner
        = pre.map (fun x => (x.1, (runner x.2).out))
          ++ post.map (fun x => (x.1, (runner x.2).out))) := by
  refine ⟨?_, ?_, ?_, ?_⟩
  · intro l c hm
    rw [mem_collect_keys]
    constructor
    · rintro ⟨c2, hm2, hs2⟩
      have hcc : c = c2 := nodup_keys_unique hnd hm hm2
      rw [hcc]; exact hs2
    · intro hs; exact ⟨c, hm, hs⟩
  · intro l hl
    rcases (mem_collect_keys _ _ _).mp hl with ⟨c, hm, _⟩
    exact List.mem_map.mpr ⟨(l, c), hm, rfl⟩
  · intro hall
    have hfilter : commands.filter (fun kc => (runner kc.2).err == "") = commands :=
      List.filter_eq_self.mpr (fun kc hk => by simpa using hall kc hk)
    have hcomp : (Prod.fst ∘ fun kc : String × String => (kc.1, (runner kc.2).out))
        = Prod.fst := funext (fun kc => rfl)
    rw [collect_eq, hfilter, List.map_map, hcomp]
  · rintro pre kc post rfl hfail hok
    have hpre : pre.filter (fun kc => (runner kc.2).err == "") = pre :=
      List.filter_eq_self.mpr (fun x hx => by simpa using hok x (Or.inl hx))
    have hpost : post.filter (fun kc => (runner kc.2).err == "") = post :=
      List.filter_eq_self.mpr (fun x hx => by simpa using hok x (Or.inr hx))
    have hkc : ((runner kc.2).err == "") = false := by simp [hfail]
    have hfilter : (pre ++ kc :: post).filter (fun kc => (runner kc.2).err == "")
        = pre ++ post := by
      rw [List.filter_append, hpre, List.filter_cons]
      simp [hkc, hpost]
    constructor
    · rw [collect_eq, hfilter]
      simp only [List.length_map, List.length_append, List.length_cons]
      omega
    · rw [collect_eq, hfilter, List.map_append]

/-- Witness for C1: with every command succeeding with output HOST1, the
collected key set equals the declared label set of the system command set. -/
theorem collector_presence_iff_success_witness :
    (collect system_commands (fun _ => ⟨"HOST1", ""⟩)).map Prod.fst
      = system_commands.map Prod.fst :=
  (collector_presence_iff_success system_commands (fun _ => ⟨"HOST1", ""⟩)
    (by decide)).2.2.1 (fun kc _ => rfl)

/-- Claim C2: the sweep issues exactly one probe command per host number 1
to 254, in that order; an address is in the result exactly when its probe
output contains the affirmative reply marker; and probes whose underlying
command times out or fails to launch are never classified live. -/
theorem sweep_probes_and_membership (subnet : String) (runner : Runner) :
    (scan_network_trace subnet runner).1 = (List.range' 1 254).map (pingCmd subnet) ∧
    (scan_network_trace subnet runner).2 = scan_network subnet runner ∧
    (∀ ip, ip ∈ scan_network subnet runner ↔
      ∃ h, h ∈ List.range' 1 254 ∧ ip = mkIp subnet h
        ∧ liveHost runner subnet h = true) ∧
    (∀ env : String → ProcBehavior, ∀ h : Nat,
      (env (pingCmd subnet h) = ProcBehavior.timesOut ∨
        ∃ msg, env (pingCmd subnet h) = ProcBehavior.launchError msg) →
      liveHost (tool_runner env) subnet h = false) := by
  refine ⟨?_, ?_, mem_scan_network subnet runner, ?_⟩
  · rw [scan_network_trace_eq]
  · rw [scan_network_trace_eq]
  · intro env h hcase
    unfold liveHost tool_runner
    rcases hcase with hc | ⟨msg, hc⟩ <;> rw [hc] <;> rfl

/-- Frame of the conditional sweep phase: it never touches the timestamp or
the two info maps, for any subnet argument. -/
theorem phase_hosts_frame (subnet : Option String) (env : String → ProcBehavior)
    (r : Report) :
    (phase_hosts subnet env r).timestamp = r.timestamp ∧
    (phase_hosts subnet env r).system_info = r.system_info ∧
    (phase_hosts subnet env r).network_info = r.network_info := by
  unfold phase_hosts
  cases subnet with
  | none => exact ⟨rfl, rfl, rfl⟩
  | some s =>
      dsimp only
      split <;> exact ⟨rfl, rfl, rfl⟩

/-- Claim C7: the timestamp is the one fixed at construction and survives
every phase; each phase writes only its own field and leaves the others
unchanged; and a full run with no subnet leaves active_hosts empty while
both info maps hold exactly what the collectors return. -/
theorem report_lifecycle (ts : String) (env : String → ProcBehavior)
    (subnet : Option String) (r : Report) :
    (run_scan none env ts).timestamp = ts ∧
    (run_scan none env ts).active_hosts = [] ∧
    (run_scan none env ts).system_info = get_system_info env ∧
    (run_scan none env ts).network_info = get_network_info env ∧
    (run_scan subnet env ts).timestamp = ts ∧
    (phase_system env r).timestamp = r.timestamp ∧
    (phase_system env r).network_info = r.network_info ∧
    (phase_system env r).active_hosts = r.active_hosts ∧
    (phase_network env r).timestamp = r.timestamp ∧
    (phase_network env r).system_info = r.system_info ∧
    (phase_network env r).active_hosts = r.active_hosts ∧
    (phase_hosts subnet env r).timestamp = r.timestamp ∧
    (phase_hosts subnet env r).system_info = r.system_info ∧
    (phase_hosts subnet env r).network_info = r.network_info := by
  have hfr := phase_hosts_frame subnet env
    (phase_network env (phase_system env (init_report ts)))
  have hfr2 := phase_hosts_frame subnet env r
  exact ⟨rfl, rfl, rfl, rfl, hfr.1, rfl, rfl, rfl, rfl, rfl, rfl,
    hfr2.1, hfr2.2.1, hfr2.2.2⟩

/-- Claim C8: a launch failure with a non-empty description yields a failed
result carrying that description, and an individual failure never aborts a
collection: the collector processes any decomposition of its command list
independently, so the remaining commands are still handled. -/
theorem runner_launch_error_contract (msg : String) (hmsg : msg ≠ "")
    (pre post : List (String × String)) (runner : Runner) :
    run_command (.launchError msg) = ⟨"", msg⟩ ∧
    (run_command (.launchError msg)).failed = true ∧
    collect (pre ++ post) runner = collect pre runner ++ collect post runner := by
  refine ⟨rfl, ?_, ?_⟩
  · simp [run_command, ProbeResult.failed, hmsg]
  · rw [collect_eq, collect_eq, collect_eq, List.filter_append, List.map_append]

/-- Witness for C8 at a concrete launch error and a concrete two-command
collection split. -/
theorem runner_launch_error_contract_witness :
    run_command (.launchError "No such file or directory") = ⟨"", "No such file or directory"⟩ ∧
    (run_command (.launchError "No such file or directory")).failed = true ∧
    collect ([("Hostname", "hostname")] ++ [("User Accounts", "net users")])
        (fun _ => ⟨"", "boom"⟩)
      = collect [("Hostname", "hostname")] (fun _ => ⟨"", "boom"⟩)
        ++ collect [("User Accounts", "net users")] (fun _ => ⟨"", "boom"⟩) :=
  runner_launch_error_contract "No such file or directory" (by decide)
    [("Hostname", "hostname")] [("User Accounts", "net users")] (fun _ => ⟨"", "boom"⟩)

/-- Claim C9: against a deterministic runner, in other words one whose
answer does not depend on the position of the call in the sequential
execution, two sweeps of the same subnet return identical host lists, and
each equals the sweep against the induced plain runner. -/
theorem sweep_deterministic_runner (runner : Nat → String → ProbeResult)
    (hdet : ∀ n m cmd, runner n cmd = runner m cmd)
    (subnet : String) (k0 k1 : Nat) :
    scan_network_seq runner subnet k0 = scan_network_seq runner subnet k1 ∧
    scan_network_seq runner subnet k0 = scan_network subnet (runner 0) := by
  have h0 := scan_network_seq_eq runner hdet subnet k0
  have h1 := scan_network_seq_eq runner hdet subnet k1
  exact ⟨h0.trans h1.symm, h0⟩

/-- Witness for C9: the all-silent runner, with the second sweep starting at
call index 254 as in two consecutive runs. -/
theorem sweep_deterministic_runner_witness :
    scan_network_seq (fun _ _ => ⟨"", ""⟩) "10.0.0" 0
      = scan_network_seq (fun _ _ => ⟨"", ""⟩) "10.0.0" 254 ∧
    scan_network_seq (fun _ _ => ⟨"", ""⟩) "10.0.0" 0
      = scan_network "10.0.0" ((fun (_ : Nat) (_ : String) => (⟨"", ""⟩ : ProbeResult)) 0) :=
  sweep_deterministic_runner (fun _ _ => ⟨"", ""⟩) (fun _ _ _ => rfl) "10.0.0" 0 254

/-- Counterexample to C10 as stated: a probe whose child exits normally with
the reply marker on stdout and a warning on stderr counts as failed, yet its
output is non-empty and satisfies the liveness marker check. -/
theorem failed_probe_nonempty_output :
    (run_command (.exits "Reply from 10.0.0.5: bytes=32 time=1ms" "ping: warning" 0)).failed
        = true ∧
    (run_command (.exits "Reply from 10.0.0.5: bytes=32 time=1ms" "ping: warning" 0)).out
        ≠ "" ∧
    strContains
        (run_command (.exits "Reply from 10.0.0.5: bytes=32 time=1ms" "ping: warning" 0)).out
        "Reply from" = true := by
  refine ⟨by decide, by decide, by decide⟩

/-- Claim C10 as amended: a succeeding probe is inserted whatever its output,
including the empty string, so presence depends only on the error component;
and a run that times out or fails to launch returns empty output, hence can
never satisfy the liveness marker check in the sweep. -/
theorem collector_empty_output_amended
    (commands : List (String × String)) (runner : Runner)
    (l c : String) (hmem : (l, c) ∈ commands) (hsucc : (runner c).err = "") :
    (l, (runner c).out) ∈ collect commands runner ∧
    (run_command ProcBehavior.timesOut).out = "" ∧
    (∀ msg, (run_command (ProcBehavior.launchError msg)).out = "") ∧
    (∀ r : Runner, ∀ subnet h, (r (pingCmd subnet h)).out = "" →
      liveHost r subnet h = false) := by
  refine ⟨?_, rfl, fun msg => rfl, ?_⟩
  · rw [collect_eq]
    exact List.mem_map.mpr ⟨(l, c),
      List.mem_filter.mpr ⟨hmem, by simpa using hsucc⟩, rfl⟩
  · intro r subnet h hout
    unfold liveHost
    rw [hout]
    rfl

/-- Witness for the amended C10: a command succeeding with empty output and
empty error is stored under its label with the empty string as value. -/
theorem collector_empty_output_amended_witness :
    ("Hostname", "") ∈ collect [("Hostname", "hostname")] (fun _ => ⟨"", ""⟩) :=
  (collector_empty_output_amended [("Hostname", "hostname")] (fun _ => ⟨"", ""⟩)
    "Hostname" "hostname" (by simp) rfl).1

end H3llo
